import Mathlib

/-!
Shallow embedding of the gmossp Prebid.js bidder adapter, in its two
variants:

* the per-request (GET) variant, `src/modules/gmosspBidAdapter.js`;
* the aggregate (POST) variant, `src/unnamed/part_000`.

Absent JavaScript object fields are modelled as `Option.none`; code paths
that can throw are modelled with `Except JsError`.  Helpers that live in
Prebid core (`src/utils.js` of the framework, which is not part of this
repository snapshot) are modelled from the specification and say so in
their doc comments.
-/

deriving instance DecidableEq for Except

/-- A thrown JavaScript error.  `typeError` stands for a property access on
`undefined`; `genericError` for any other failure during pixel-snippet
construction. -/
inductive JsError where
  | typeError
  | genericError
deriving DecidableEq, Repr

/-- JavaScript truthiness of a possibly absent string: absent and empty
strings are falsy, every other string is truthy. -/
def truthyStr : Option String → Bool
  | none => false
  | some s => s ≠ ""

/-- JavaScript `a || b` on a possibly absent string with a string default. -/
def jsOrStr (a : Option String) (b : String) : String :=
  match a with
  | none => b
  | some s => if s = "" then b else s

/-- JavaScript `a || b` on a possibly absent integer with an integer
default (`0` is falsy). -/
def jsOrInt (a : Option Int) (b : Int) : Int :=
  match a with
  | none => b
  | some v => if v = 0 then b else v

/-- JavaScript `+=` of a string onto a possibly absent left operand:
`undefined + s` coerces the left side to the string `undefined`. -/
def jsStrAdd (a : Option String) (s : String) : String :=
  match a with
  | none => "undefined" ++ s
  | some t => t ++ s

/-- An impression-tracker entry of a wire response: either a tracker URL or
a malformed entry on which pixel-snippet construction throws. -/
inductive Trk where
  | url (u : String)
  | malformed
deriving DecidableEq, Repr

/-- The HTML of one tracking pixel referencing the given URL. -/
def trackPixelHtml (u : String) : String :=
  "<div style=\"position:absolute;left:0px;top:0px;visibility:hidden;\"><img src=\"" ++ u ++ "\"></div>"

/-- Modelled from the spec: `createTrackPixelHtml` of Prebid core utils
(not under `src/` of this snapshot) renders exactly one tracking-pixel
`img` snippet per impression-tracker URL; a malformed tracker entry makes
it throw (spec section 4.1 and section 7, partial construction failure). -/
def createTrackPixelHtml : Trk → Except JsError String
  | Trk.url u => Except.ok (trackPixelHtml u)
  | Trk.malformed => Except.error JsError.genericError

/-- Modelled from the spec: `getBidIdParameter` of Prebid core utils reads
a named bid parameter, yielding the empty string when the parameter is
absent. -/
def getBidIdParameter (v : Option String) : String :=
  match v with
  | some s => s
  | none => ""

/-- The media type recorded on a normalized bid. -/
inductive MediaType where
  | BANNER
  | NATIVE
deriving DecidableEq, Repr

/-! ## Per-request (GET) variant: wire response model -/

/-- `title` sub-object of a native asset. -/
structure NTitle where
  text : Option String
deriving DecidableEq, Repr

/-- `data` sub-object of a native asset. -/
structure NData where
  value : Option String
deriving DecidableEq, Repr

/-- `img` sub-object of a native asset. -/
structure NImg where
  url : Option String
  w : Option Int
  h : Option Int
deriving DecidableEq, Repr

/-- One entry of the native `assets` list. -/
structure NAsset where
  id : Int
  title : Option NTitle
  data : Option NData
  img : Option NImg
deriving DecidableEq, Repr

/-- `link` sub-object of the native response. -/
structure NLink where
  url : Option String
deriving DecidableEq, Repr

/-- The top-level `native` field of a GET wire response: the object with
fields `assets`, `link`, `imptrackers`, `privacy`, `privacyIcon` (spec
section 6 wire protocol). -/
structure NativeRes where
  assets : Option (List NAsset)
  link : Option NLink
  imptrackers : Option (List String)
  privacy : Option String
  privacyIcon : Option String
deriving DecidableEq, Repr

/-- The parsed body of a GET wire response (spec section 6: `bid`, `price`,
`cur`, `w`, `h`, `creativeId`, `ad`, `imps`, `native`, `ttl`, `syncs`). -/
structure ResBodyG where
  bid : Option String
  price : Option Int
  cur : Option String
  w : Option Int
  h : Option Int
  creativeId : Option String
  ttl : Option Int
  ad : Option String
  imps : Option (List Trk)
  native : Option NativeRes
  syncs : Option (List String)
deriving DecidableEq, Repr

/-- A server response handed to the GET-variant adapter: `body` is the
parsed payload, absent when the server returned nothing. -/
structure ServerResponseG where
  body : Option ResBodyG
deriving DecidableEq, Repr

/-- Modelled from the spec: `isEmpty` of Prebid core utils holds for a body
that carries none of the wire fields (spec section 4.1: an empty body
yields zero bids); an absent body is handled by the `none` case of the
caller. -/
def isEmptyG (b : ResBodyG) : Bool :=
  b.bid.isNone && b.price.isNone && b.cur.isNone && b.w.isNone &&
  b.h.isNone && b.creativeId.isNone && b.ttl.isNone && b.ad.isNone &&
  b.imps.isNone && b.native.isNone && b.syncs.isNone

/-! ## Per-request (GET) variant: normalized bid model -/

/-- `icon` / `image` value of a normalized native bid. -/
structure ImgOut where
  url : Option String
  width : Option Int
  height : Option Int
deriving DecidableEq, Repr

/-- The native-asset bundle of a normalized native bid. -/
structure NativeOut where
  title : Option String
  body : Option String
  sponsoredBy : Option String
  icon : Option ImgOut
  image : Option ImgOut
  clickUrl : Option String
  impressionTrackers : Option (List String)
  privacyLink : Option String
  privacyIcon : Option String
deriving DecidableEq, Repr

/-- The empty object returned by `getNativeAd` on an empty asset list. -/
def emptyNativeOut : NativeOut :=
  { title := none, body := none, sponsoredBy := none, icon := none,
    image := none, clickUrl := none, impressionTrackers := none,
    privacyLink := none, privacyIcon := none }

/-- A normalized bid produced by the GET-variant `interpretResponse`. -/
structure BidOut where
  requestId : Option String
  cpm : Option Int
  currency : Option String
  width : Option Int
  height : Option Int
  creativeId : Option String
  netRevenue : Bool
  ttl : Int
  mediaType : MediaType
  ad : Option String
  native : Option NativeOut
deriving DecidableEq, Repr

/-! ## Per-request (GET) variant: operations -/

/-- `isBidRequestValid` checks `!!(bid.params.sid)` in both variants. -/
structure ParamsG where
  sid : Option String
  native : Option String
deriving DecidableEq, Repr

/-- One validated bid request handed to the GET-variant adapter. -/
structure BidRequestG where
  transactionId : Option String
  bidId : Option String
  params : ParamsG
deriving DecidableEq, Repr

/-- `isBidRequestValid` of `src/modules/gmosspBidAdapter.js`:
`return !!(bid.params.sid);`. -/
def isBidRequestValid (bid : BidRequestG) : Bool :=
  truthyStr bid.params.sid

/-- The per-iteration body of the `forEach` inside `getBannerAd` /
the POST-variant row loop: append one pixel snippet per tracker onto the
running markup; a throw aborts the iteration and the markup accumulated so
far is kept (the enclosing `try`/`catch` logs and proceeds). -/
def appendImps : Option String → List Trk → Option String
  | a, [] => a
  | a, t :: ts =>
    match createTrackPixelHtml t with
    | Except.ok p => appendImps (some (jsStrAdd a p)) ts
    | Except.error _ => a

/-- `getBannerAd` of `src/modules/gmosspBidAdapter.js`: iterates
`res.imps`, appending each pixel snippet onto `res.ad` in place (the
source mutates `res.ad`), under a `try`/`catch` that swallows failures.
An absent `imps` makes `forEach` throw immediately, which is caught with
`res` unchanged.  Returns the markup together with the mutated body. -/
def getBannerAd (res : ResBodyG) : Option String × ResBodyG :=
  match res.imps with
  | none => (res.ad, res)
  | some l =>
    let newAd := appendImps res.ad l
    (newAd, { res with ad := newAd })

/-- The GET-variant classification guard reads `res.native.length`.  The
wire shape of `native` is the object with fields `assets`, `link`,
`imptrackers`, `privacy`, `privacyIcon` (spec section 6); it carries no
`length` property, so the JavaScript read yields `undefined` and the
comparison `undefined > 0` evaluates to `false`. -/
def nativeLengthGtZero (_n : NativeRes) : Bool :=
  false

/-- One step of the `forEach` over native assets inside `getNativeAd`:
the `switch` on `asset.id`.  Accessing a missing `title` / `data` / `img`
sub-object throws. -/
def natAssetStep (acc : NativeOut) (a : NAsset) : Except JsError NativeOut :=
  if a.id = 0 then
    match a.title with
    | none => Except.error JsError.typeError
    | some t => Except.ok { acc with title := t.text }
  else if a.id = 1 then
    match a.data with
    | none => Except.error JsError.typeError
    | some d => Except.ok { acc with body := d.value }
  else if a.id = 2 then
    match a.data with
    | none => Except.error JsError.typeError
    | some d => Except.ok { acc with sponsoredBy := d.value }
  else if a.id = 3 then
    match a.img with
    | none => Except.error JsError.typeError
    | some i => Except.ok { acc with icon := some { url := i.url, width := i.w, height := i.h } }
  else if a.id = 4 then
    match a.img with
    | none => Except.error JsError.typeError
    | some i => Except.ok { acc with image := some { url := i.url, width := i.w, height := i.h } }
  else
    Except.ok acc

/-- The `forEach` over the native asset list; a throw in any step
propagates out of `getNativeAd` (there is no `try`/`catch` around it). -/
def natFold (acc : NativeOut) : List NAsset → Except JsError NativeOut
  | [] => Except.ok acc
  | a :: rest =>
    match natAssetStep acc a with
    | Except.ok acc2 => natFold acc2 rest
    | Except.error e => Except.error e

/-- `getNativeAd` of `src/modules/gmosspBidAdapter.js`.  An absent
`assets` list throws at `resNative.assets.length`; an empty list returns
the empty object; otherwise the assets are folded and then
`resNative.link.url` is dereferenced unconditionally (throws when `link`
is absent), while `imptrackers` defaults to the empty list and `privacy` /
`privacyIcon` default to the empty string. -/
def getNativeAd (resNative : NativeRes) : Except JsError NativeOut :=
  match resNative.assets with
  | none => Except.error JsError.typeError
  | some [] => Except.ok emptyNativeOut
  | some (a :: rest) =>
    match natFold emptyNativeOut (a :: rest) with
    | Except.error e => Except.error e
    | Except.ok nat =>
      match resNative.link with
      | none => Except.error JsError.typeError
      | some l =>
        Except.ok { nat with
          clickUrl := l.url,
          impressionTrackers := some (resNative.imptrackers.getD []),
          privacyLink := some (jsOrStr resNative.privacy ""),
          privacyIcon := some (jsOrStr resNative.privacyIcon "") }

/-- `interpretResponse` of `src/modules/gmosspBidAdapter.js`.  Returns the
bid list (or the propagated error) together with the response as it stands
after the call, because `getBannerAd` mutates `res.ad` in place. -/
def interpretResponseG (sr : ServerResponseG) :
    Except JsError (List BidOut) × ServerResponseG :=
  match sr.body with
  | none => (Except.ok [], sr)
  | some res =>
    if isEmptyG res then (Except.ok [], sr)
    else
      let base : BidOut :=
        { requestId := res.bid, cpm := res.price, currency := res.cur,
          width := res.w, height := res.h, creativeId := res.creativeId,
          netRevenue := true, ttl := jsOrInt res.ttl 300,
          mediaType := MediaType.BANNER, ad := none, native := none }
      match res.native with
      | some n =>
        if nativeLengthGtZero n then
          match getNativeAd n with
          | Except.error e => (Except.error e, sr)
          | Except.ok nat =>
            (Except.ok [{ base with mediaType := MediaType.NATIVE, native := some nat }], sr)
        else
          let r := getBannerAd res
          (Except.ok [{ base with mediaType := MediaType.BANNER, ad := r.1 }],
           { body := some r.2 })
      | none =>
        let r := getBannerAd res
        (Except.ok [{ base with mediaType := MediaType.BANNER, ad := r.1 }],
         { body := some r.2 })

/-! ## Aggregate (POST) variant: wire model (`src/unnamed/part_000`) -/

/-- One bid row of a POST wire response body. -/
structure RowP where
  bid : Option String
  price : Option Int
  w : Option Int
  h : Option Int
  ad : Option String
  imps : Option (List Trk)
  creativeId : Option String
  adomains : Option (List String)
deriving DecidableEq, Repr

/-- The parsed body of a POST wire response. -/
structure ResBodyP where
  cur : Option String
  ttl : Option Int
  bids : Option (List RowP)
  syncs : Option (List String)
deriving DecidableEq, Repr

/-- A server response handed to the POST-variant adapter. -/
structure ServerResponseP where
  body : Option ResBodyP
deriving DecidableEq, Repr

/-- Modelled from the spec: `isEmpty` of Prebid core utils, on a POST
body that carries none of the wire fields. -/
def isEmptyP (b : ResBodyP) : Bool :=
  b.cur.isNone && b.ttl.isNone && b.bids.isNone && b.syncs.isNone

/-- Modelled from the spec: the list-iteration helper `_each` of Prebid
core utils performs zero iterations on an absent or empty collection
(spec section 7, expected absence). -/
def eachList (o : Option (List α)) : List α :=
  o.getD []

/-- A normalized bid produced by the POST-variant `interpretResponse`. -/
structure BidOutP where
  requestId : Option String
  cpm : Option Int
  currency : Option String
  width : Option Int
  height : Option Int
  ad : Option String
  creativeId : Option String
  netRevenue : Bool
  ttl : Int
  adomains : Option (List String)
deriving DecidableEq, Repr

/-- One row of the POST-variant `interpretResponse` loop: `let ad =
row.ad` is a local, the `try`/`catch` keeps whatever was appended before a
failing tracker, and the row is pushed regardless. -/
def interpretRowP (cur : Option String) (ttl : Option Int) (row : RowP) : BidOutP :=
  let ad := appendImps row.ad (eachList row.imps)
  { requestId := row.bid, cpm := row.price, currency := cur,
    width := row.w, height := row.h, ad := ad,
    creativeId := row.creativeId, netRevenue := true,
    ttl := jsOrInt ttl 300, adomains := row.adomains }

/-- `interpretResponse` of `src/unnamed/part_000`.  The response object is
returned unchanged alongside the bids: this variant never mutates it. -/
def interpretResponseP (sr : ServerResponseP) :
    Except JsError (List BidOutP) × ServerResponseP :=
  (match sr.body with
   | none => Except.ok []
   | some res =>
     if isEmptyP res then Except.ok []
     else Except.ok ((eachList res.bids).map (interpretRowP res.cur res.ttl)),
   sr)

/-! ## Request building -/

/-- The GET-variant endpoint constant. -/
def ENDPOINT : String :=
  "https://mabuchi-ad.devel.sp.gmossp-sp.jp/hb/prebid/query.ad"

/-- The POST-variant endpoint constant. -/
def ENDPOINT_P : String :=
  "https://sp.gmossp-sp.jp/hb/prebid/query.ad"

/-- An emitted wire request of the GET variant: query string in `data`. -/
structure WireRequestG where
  method : String
  url : String
  data : String
deriving DecidableEq, Repr

/-- One external-identity entry built by `setUserId`. -/
structure Eid where
  source : String
  id : String
deriving DecidableEq, Repr

/-- `setUserId` of `src/modules/gmosspBidAdapter.js`: pushes an entry when
the identity value is a string, here when it is present. -/
def setUserId (eids : List Eid) (source : String) (value : Option String) : List Eid :=
  match value with
  | some s => eids ++ [{ source := source, id := s }]
  | none => eids

/-- Modelled from the spec: the serialization of the identity list for the
`usr` query field (spec section 4.1: a single external identity pulled
from a specific provider namespace); an empty identity list is an absent
value. -/
def encodeEids : List Eid → Option String
  | [] => none
  | e :: rest =>
    some (String.intercalate "," ((e :: rest).map fun x => x.source ++ ":" ++ x.id))

/-- Modelled from the spec: `tryAppendQueryString` of Prebid core utils
appends `key=value&` when the value is present and non-empty; a field
whose value is absent is omitted entirely and is never emitted as empty
(spec section 4.1). -/
def tryAppendQueryString (qs : String) (key : String) (value : Option String) : String :=
  match value with
  | none => qs
  | some v => if v = "" then qs else qs ++ key ++ "=" ++ v ++ "&"

/-- `getCurrencyType` of `src/modules/gmosspBidAdapter.js`: the configured
ad-server currency when present, else the hard-coded `JPY` (the global
config read is a platform collaborator, passed here as an argument). -/
def getCurrencyType (adServerCurrency : Option String) : String :=
  jsOrStr adServerCurrency "JPY"

/-- The referer info available to the GET variant. -/
structure RefererInfoG where
  referer : Option String
deriving DecidableEq, Repr

/-- The auction-wide context of the GET variant; `idlEnv` is the value of
`userId.idl_env` on the bidder request. -/
structure BidderRequestG where
  refererInfo : RefererInfoG
  idlEnv : Option String
deriving DecidableEq, Repr

/-- `buildRequests` of `src/modules/gmosspBidAdapter.js`: one GET wire
request per valid bid, with the nine query fields appended through
`tryAppendQueryString` in source order.  The do-not-track platform read
and the configured ad-server currency are passed as arguments. -/
def buildRequestsG (adServerCurrency : Option String) (dnt : Bool)
    (validBidRequests : List BidRequestG) (bidderRequest : BidderRequestG) :
    List WireRequestG :=
  let url := bidderRequest.refererInfo.referer
  let cur := getCurrencyType adServerCurrency
  let dntS := if dnt then "1" else "0"
  validBidRequests.map fun request =>
    let tid := request.transactionId
    let bid := request.bidId
    let ver := "$prebid.version$"
    let sid := getBidIdParameter request.params.sid
    let ntv := getBidIdParameter request.params.native
    let eids := setUserId [] "liveramp.com" bidderRequest.idlEnv
    let qs := tryAppendQueryString "" "tid" tid
    let qs := tryAppendQueryString qs "bid" bid
    let qs := tryAppendQueryString qs "ver" (some ver)
    let qs := tryAppendQueryString qs "sid" (some sid)
    let qs := tryAppendQueryString qs "url" url
    let qs := tryAppendQueryString qs "cur" (some cur)
    let qs := tryAppendQueryString qs "dnt" (some dntS)
    let qs := tryAppendQueryString qs "native" (some ntv)
    let qs := tryAppendQueryString qs "usr" (encodeEids eids)
    { method := "GET", url := ENDPOINT, data := qs }

/-- The nine query fields of a GET wire request, in the order the source
appends them. -/
def queryFieldsG (adServerCurrency : Option String) (dnt : Bool)
    (bidderRequest : BidderRequestG) (request : BidRequestG) :
    List (String × Option String) :=
  [("tid", request.transactionId),
   ("bid", request.bidId),
   ("ver", some "$prebid.version$"),
   ("sid", some (getBidIdParameter request.params.sid)),
   ("url", bidderRequest.refererInfo.referer),
   ("cur", some (getCurrencyType adServerCurrency)),
   ("dnt", some (if dnt then "1" else "0")),
   ("native", some (getBidIdParameter request.params.native)),
   ("usr", encodeEids (setUserId [] "liveramp.com" bidderRequest.idlEnv))]

/-- The query-string segment a field contributes: nothing when the value
is absent or empty, `key=value&` otherwise. -/
def fieldSeg : String × Option String → Option String
  | (_, none) => none
  | (k, some v) => if v = "" then none else some (k ++ "=" ++ v ++ "&")

/-! ## Aggregate (POST) variant: request building -/

/-- Bid parameters of the POST variant; only `sid` is read. -/
structure ParamsP where
  sid : Option String
deriving DecidableEq, Repr

/-- One validated bid request of the POST variant; `imuid`, `pubcid`,
`deviceSua` and `userData` are the values at the deep-access paths
`userId.imuid`, `userId.pubcid`, `ortb2.device.sua` and
`ortb2.user.data`. -/
structure BidRequestP where
  bidId : Option String
  params : ParamsP
  imuid : Option String
  pubcid : Option String
  deviceSua : Option String
  userData : Option String
deriving DecidableEq, Repr

/-- `isBidRequestValid` of `src/unnamed/part_000`: same
`!!(bid.params.sid)` check as the GET variant. -/
def isBidRequestValidP (bid : BidRequestP) : Bool :=
  truthyStr bid.params.sid

/-- Modelled from the spec: `setOnAny` of Prebid core utils picks the
first non-empty value for a field across the list of candidate bid
requests (spec glossary, set-on-any). -/
def setOnAny : List (Option String) → Option String
  | [] => none
  | some v :: rest => if v = "" then setOnAny rest else some v
  | none :: rest => setOnAny rest

/-- A page `meta` element as seen by the canonical-URL scan. -/
structure MetaEl where
  property : Option String
  content : Option String
deriving DecidableEq, Repr

/-- The loop inside `getUrlInfo`: scan the meta elements for an `og:url`
property while no truthy canonical link has been found; an assigned
absent `content` leaves the link falsy and the scan continues. -/
def scanOgUrl (acc : Option String) : List MetaEl → Option String
  | [] => acc
  | m :: rest =>
    if truthyStr acc then acc
    else if m.property = some "og:url" then scanOgUrl m.content rest
    else scanOgUrl acc rest

/-- The referer info available to the POST variant. -/
structure RefererInfoP where
  canonicalUrl : Option String
  topmostLocation : Option String
  ref : Option String
deriving DecidableEq, Repr

/-- The `url_info` object embedded in a POST wire request body. -/
structure UrlInfo where
  canonical_link : Option String
  url : Option String
  ref : String
deriving DecidableEq, Repr

/-- `getUrlInfo` of `src/unnamed/part_000`: prefer the supplied canonical
URL, else scan the page meta elements for `og:url` (the DOM read is a
platform collaborator, passed as the `metas` argument); `ref` falls back
to the document referrer. -/
def getUrlInfo (refererInfo : RefererInfoP) (metas : List MetaEl)
    (docReferrer : String) : UrlInfo :=
  let canonicalLink :=
    if truthyStr refererInfo.canonicalUrl then refererInfo.canonicalUrl
    else scanOgUrl refererInfo.canonicalUrl metas
  { canonical_link := canonicalLink,
    url := refererInfo.topmostLocation,
    ref := jsOrStr refererInfo.ref docReferrer }

/-- The auction-wide context of the POST variant; `currencyResolved` is
the result of the external `getCurrencyFromBidderRequest` collaborator. -/
structure BidderRequestP where
  refererInfo : RefererInfoP
  currencyResolved : Option String
deriving DecidableEq, Repr

/-- `getCurrencyType` of `src/unnamed/part_000`: the currency resolved
from the bidder request, else the hard-coded `JPY`. -/
def getCurrencyTypeP (bidderRequest : BidderRequestP) : String :=
  jsOrStr bidderRequest.currencyResolved "JPY"

/-- One `requests` entry of a POST wire request body. -/
structure ReqRow where
  bid : Option String
  sid : String
deriving DecidableEq, Repr

/-- The `eids` object embedded in a POST wire request body. -/
structure EidsP where
  im_uid : Option String
  shared_id : Option String
deriving DecidableEq, Repr

/-- The (JSON-stringified in the source) body of a POST wire request. -/
structure WireBodyP where
  ver : String
  eids : EidsP
  url_info : UrlInfo
  cur : String
  dnt : Int
  device_sua : Option String
  user_data : Option String
  requests : List ReqRow
deriving DecidableEq, Repr

/-- An emitted wire request of the POST variant. -/
structure WireRequestP where
  method : String
  url : String
  data : WireBodyP
deriving DecidableEq, Repr

/-- `buildRequests` of `src/unnamed/part_000`: one aggregate POST wire
request whose body lists one `bid`/`sid` entry per valid bid, in order.
The do-not-track platform read, the page meta elements and the document
referrer are passed as arguments. -/
def buildRequestsP (dnt : Bool) (metas : List MetaEl) (docReferrer : String)
    (validBidRequests : List BidRequestP) (bidderRequest : BidderRequestP) :
    List WireRequestP :=
  let requests := validBidRequests.map fun request =>
    { bid := request.bidId,
      sid := getBidIdParameter request.params.sid : ReqRow }
  [{ method := "POST",
     url := ENDPOINT_P,
     data :=
       { ver := "$prebid.version$",
         eids :=
           { im_uid := setOnAny (validBidRequests.map fun r => r.imuid),
             shared_id := setOnAny (validBidRequests.map fun r => r.pubcid) },
         url_info := getUrlInfo bidderRequest.refererInfo metas docReferrer,
         cur := getCurrencyTypeP bidderRequest,
         dnt := if dnt then 1 else 0,
         device_sua := setOnAny (validBidRequests.map fun r => r.deviceSua),
         user_data := setOnAny (validBidRequests.map fun r => r.userData),
         requests := requests } }]

/-! ## User syncs -/

/-- The sync options handed to `getUserSyncs`. -/
structure SyncOptions where
  pixelEnabled : Bool
deriving DecidableEq, Repr

/-- One emitted user-sync pixel. -/
structure SyncPixel where
  type : String
  url : String
deriving DecidableEq, Repr

/-- The `forEach` over server responses shared by both variants of
`getUserSyncs`, with each response reduced to its `body.syncs` access
path.  When pixel syncing is enabled and a body is present, the source
reads `res.body.syncs.length`: an absent `syncs` list throws; a non-empty
one pushes one image pixel per URL in order. -/
def collectSyncs (pixelEnabled : Bool) :
    List (Option (Option (List String))) → Except JsError (List SyncPixel)
  | [] => Except.ok []
  | b :: rest =>
    if pixelEnabled then
      match b with
      | some (some l) =>
        if l.length = 0 then collectSyncs pixelEnabled rest
        else (collectSyncs pixelEnabled rest).map
          (fun tail => (l.map fun u => { type := "image", url := u }) ++ tail)
      | some none => Except.error JsError.typeError
      | none => collectSyncs pixelEnabled rest
    else collectSyncs pixelEnabled rest

/-- `getUserSyncs` of `src/modules/gmosspBidAdapter.js`. -/
def getUserSyncsG (syncOptions : SyncOptions)
    (serverResponses : List ServerResponseG) : Except JsError (List SyncPixel) :=
  if serverResponses.length = 0 then Except.ok []
  else collectSyncs syncOptions.pixelEnabled
    (serverResponses.map fun r => r.body.map fun b => b.syncs)

/-- `getUserSyncs` of `src/unnamed/part_000` (textually the same loop as
the GET variant, over the POST response type). -/
def getUserSyncsP (syncOptions : SyncOptions)
    (serverResponses : List ServerResponseP) : Except JsError (List SyncPixel) :=
  if serverResponses.length = 0 then Except.ok []
  else collectSyncs syncOptions.pixelEnabled
    (serverResponses.map fun r => r.body.map fun b => b.syncs)

/-! ## Helper definitions and lemmas for the theorems -/

/-- The concatenation of one tracking-pixel snippet per URL, in order. -/
def pixelsHtml : List String → String
  | [] => ""
  | u :: rest => trackPixelHtml u ++ pixelsHtml rest

lemma appendImps_all_ok (urls : List String) (a : String) :
    appendImps (some a) (urls.map Trk.url) = some (a ++ pixelsHtml urls) := by
  induction urls generalizing a with
  | nil => simp [appendImps, pixelsHtml]
  | cons u rest ih =>
    simp only [List.map_cons, appendImps, createTrackPixelHtml, jsStrAdd,
      pixelsHtml, ih, String.append_assoc]

lemma appendImps_stops_at_malformed (goods : List String) (a : String)
    (rest : List Trk) :
    appendImps (some a) (goods.map Trk.url ++ Trk.malformed :: rest) =
      some (a ++ pixelsHtml goods) := by
  induction goods generalizing a with
  | nil => simp [appendImps, createTrackPixelHtml, pixelsHtml]
  | cons u gs ih =>
    simp only [List.map_cons, List.cons_append, appendImps,
      createTrackPixelHtml, jsStrAdd, List.append_eq, pixelsHtml, ih,
      String.append_assoc]

lemma isEmptyG_false_of_ad (b : ResBodyG) (a : String) (h : b.ad = some a) :
    isEmptyG b = false := by
  simp [isEmptyG, h]

/-! ## C1 -/

/-- A POST wire body carrying none of the wire fields. -/
def emptyBodyP : ResBodyP :=
  { cur := none, ttl := none, bids := none, syncs := none }

/-- C1: for every wire response whose body is absent or empty,
`interpretResponse` returns the empty bid list and does not throw, in both
the per-request (GET) and the aggregate (POST) variant. -/
theorem interpretResponse_empty_body_no_bids :
    (∀ sr : ServerResponseG,
      (sr.body = none ∨ ∃ b, sr.body = some b ∧ isEmptyG b = true) →
      (interpretResponseG sr).1 = Except.ok []) ∧
    (∀ sr : ServerResponseP,
      (sr.body = none ∨ ∃ b, sr.body = some b ∧ isEmptyP b = true) →
      (interpretResponseP sr).1 = Except.ok []) := by
  constructor
  · intro sr h
    rcases h with h | ⟨b, hb, he⟩
    · simp [interpretResponseG, h]
    · simp [interpretResponseG, hb, he]
  · intro sr h
    rcases h with h | ⟨b, hb, he⟩
    · simp [interpretResponseP, h]
    · simp [interpretResponseP, hb, he]

/-- Witness for C1 at an absent GET body and an empty POST body. -/
theorem interpretResponse_empty_body_no_bids_witness :
    (interpretResponseG { body := none }).1 = Except.ok [] ∧
    (interpretResponseP { body := some emptyBodyP }).1 = Except.ok [] :=
  ⟨interpretResponse_empty_body_no_bids.1 { body := none } (Or.inl rfl),
   interpretResponse_empty_body_no_bids.2 { body := some emptyBodyP }
     (Or.inr ⟨emptyBodyP, rfl, by decide⟩)⟩

/-! ## C2 -/

/-- C2: in both variants, `isBidRequestValid` returns true iff the `sid`
bid parameter is present and truthy; it returns false whenever `sid` is
absent, depends on no other field, and has no side effects (it is a pure
function of the bid request). -/
theorem isBidRequestValid_iff_truthy_sid :
    (∀ bid : BidRequestG,
      isBidRequestValid bid = true ↔ ∃ s, bid.params.sid = some s ∧ s ≠ "") ∧
    (∀ bid : BidRequestG, bid.params.sid = none → isBidRequestValid bid = false) ∧
    (∀ p q : BidRequestG, p.params.sid = q.params.sid →
      isBidRequestValid p = isBidRequestValid q) ∧
    (∀ bid : BidRequestP,
      isBidRequestValidP bid = true ↔ ∃ s, bid.params.sid = some s ∧ s ≠ "") ∧
    (∀ p q : BidRequestP, p.params.sid = q.params.sid →
      isBidRequestValidP p = isBidRequestValidP q) := by
  refine ⟨fun bid => ?_, fun bid h => ?_, fun p q h => ?_, fun bid => ?_,
    fun p q h => ?_⟩
  · cases h : bid.params.sid with
    | none => simp [isBidRequestValid, truthyStr, h]
    | some s => by_cases hs : s = "" <;> simp [isBidRequestValid, truthyStr, h, hs]
  · simp [isBidRequestValid, truthyStr, h]
  · simp [isBidRequestValid, h]
  · cases h : bid.params.sid with
    | none => simp [isBidRequestValidP, truthyStr, h]
    | some s => by_cases hs : s = "" <;> simp [isBidRequestValidP, truthyStr, h, hs]
  · simp [isBidRequestValidP, h]

/-- Witness for C2: a request lacking `sid` is rejected, and validity is
unchanged when only the non-`sid` fields differ. -/
theorem isBidRequestValid_iff_truthy_sid_witness :
    isBidRequestValid
      { transactionId := some "t", bidId := some "b",
        params := { sid := none, native := some "1" } } = false ∧
    isBidRequestValid
      { transactionId := some "t1", bidId := some "b1",
        params := { sid := some "42", native := none } } =
    isBidRequestValid
      { transactionId := some "t2", bidId := some "b2",
        params := { sid := some "42", native := some "1" } } :=
  ⟨isBidRequestValid_iff_truthy_sid.2.1 _ rfl,
   isBidRequestValid_iff_truthy_sid.2.2.1 _ _ rfl⟩

/-! ## C3 -/

/-- A GET wire body whose banner row carries one impression tracker. -/
def exBodyOneImp : ResBodyG :=
  { bid := some "b1", price := some 1, cur := some "JPY", w := some 1,
    h := some 1, creativeId := some "c", ttl := some 300,
    ad := some "<div>ad</div>", imps := some [Trk.url "http://t1"],
    native := none, syncs := none }

/-- Counterexample to C3: in the per-request (GET) variant, `getBannerAd`
mutates `res.ad` in place, so a second `interpretResponse` call on the
same wire response appends the tracking pixel a second time and yields a
different bid list. -/
theorem interpretResponse_get_second_call_differs :
    (interpretResponseG ((interpretResponseG { body := some exBodyOneImp }).2)).1 ≠
      (interpretResponseG { body := some exBodyOneImp }).1 := by decide

lemma interpretResponseG_state_fixed (sr : ServerResponseG)
    (h : ∀ b, sr.body = some b → b.imps = none ∨ b.imps = some []) :
    (interpretResponseG sr).2 = sr := by
  obtain ⟨body⟩ := sr
  cases body with
  | none => rfl
  | some b =>
    obtain ⟨bid, price, cur, w, hh, cid, ttl, ad, imps, nat, syncs⟩ := b
    have hi := h _ rfl
    simp only at hi
    by_cases he : isEmptyG ⟨bid, price, cur, w, hh, cid, ttl, ad, imps, nat, syncs⟩
    · simp [interpretResponseG, he]
    · rcases hi with hi | hi <;> subst hi <;> cases nat <;>
        simp [interpretResponseG, he, getBannerAd, nativeLengthGtZero,
          appendImps]

/-- C3 amended: the aggregate (POST) variant never mutates its input, so a
second `interpretResponse` call yields the same bid list; the per-request
(GET) variant does so only when no tracker snippet is appended (the
`imps` list is absent or empty), because `getBannerAd` mutates the stored
markup in place. -/
theorem interpretResponse_idempotent_unless_get_mutates :
    (∀ sr : ServerResponseP,
      (interpretResponseP sr).2 = sr ∧
      (interpretResponseP ((interpretResponseP sr).2)).1 =
        (interpretResponseP sr).1) ∧
    (∀ sr : ServerResponseG,
      (∀ b, sr.body = some b → b.imps = none ∨ b.imps = some []) →
      (interpretResponseG ((interpretResponseG sr).2)).1 =
        (interpretResponseG sr).1) := by
  refine ⟨fun sr => ⟨rfl, rfl⟩, fun sr h => ?_⟩
  rw [interpretResponseG_state_fixed sr h]

/-- Witness for the amended C3 at a GET body with an empty tracker list. -/
theorem interpretResponse_idempotent_unless_get_mutates_witness :
    (interpretResponseG ((interpretResponseG
        { body := some { exBodyOneImp with imps := some [] } }).2)).1 =
      (interpretResponseG
        { body := some { exBodyOneImp with imps := some [] } }).1 :=
  interpretResponse_idempotent_unless_get_mutates.2
    { body := some { exBodyOneImp with imps := some [] } }
    (fun b hb => by
      injection hb with hb
      subst hb
      exact Or.inr rfl)

/-! ## C4 -/

/-- C4: on the banner path of the GET variant, the resulting markup is the
server markup followed by exactly one tracking-pixel snippet per
impression-tracker URL, in tracker order, and the bid carries all the
row fields. -/
theorem banner_ad_appends_one_pixel_per_tracker
    (b : ResBodyG) (a : String) (urls : List String)
    (had : b.ad = some a) (himps : b.imps = some (urls.map Trk.url))
    (hnat : b.native = none) :
    (interpretResponseG { body := some b }).1 =
      Except.ok [{
        requestId := b.bid, cpm := b.price, currency := b.cur,
        width := b.w, height := b.h, creativeId := b.creativeId,
        netRevenue := true, ttl := jsOrInt b.ttl 300,
        mediaType := MediaType.BANNER,
        ad := some (a ++ pixelsHtml urls), native := none }] := by
  have he := isEmptyG_false_of_ad b a had
  simp [interpretResponseG, he, hnat, getBannerAd, himps, had,
    appendImps_all_ok]

/-- Witness for C4 at the example of the claim: markup
`<div>ad</div>` with the single tracker `http://t1`. -/
theorem banner_ad_appends_one_pixel_per_tracker_witness :
    (interpretResponseG { body := some exBodyOneImp }).1 =
      Except.ok [{
        requestId := some "b1", cpm := some 1,
        currency := some "JPY", width := some 1, height := some 1,
        creativeId := some "c", netRevenue := true, ttl := 300,
        mediaType := MediaType.BANNER,
        ad := some ("<div>ad</div>" ++ pixelsHtml ["http://t1"]),
        native := none }] :=
  banner_ad_appends_one_pixel_per_tracker exBodyOneImp "<div>ad</div>"
    ["http://t1"] rfl rfl rfl

/-! ## C5 -/

/-- C5: when pixel-snippet construction throws on a tracker entry, the
failure is caught, `interpretResponse` does not abort, and the bid is
still returned carrying the markup assembled before the failure — in both
variants. -/
theorem pixel_failure_keeps_partial_markup :
    (∀ (b : ResBodyG) (a : String) (goods : List String) (rest : List Trk),
      b.ad = some a →
      b.imps = some (goods.map Trk.url ++ Trk.malformed :: rest) →
      b.native = none →
      (interpretResponseG { body := some b }).1 =
        Except.ok [{
          requestId := b.bid, cpm := b.price, currency := b.cur,
          width := b.w, height := b.h, creativeId := b.creativeId,
          netRevenue := true, ttl := jsOrInt b.ttl 300,
          mediaType := MediaType.BANNER,
          ad := some (a ++ pixelsHtml goods), native := none }]) ∧
    (∀ (pb : ResBodyP) (row : RowP) (a : String) (goods : List String)
        (rest : List Trk),
      pb.bids = some [row] →
      row.ad = some a →
      row.imps = some (goods.map Trk.url ++ Trk.malformed :: rest) →
      (interpretResponseP { body := some pb }).1 =
        Except.ok [{
          requestId := row.bid, cpm := row.price, currency := pb.cur,
          width := row.w, height := row.h,
          ad := some (a ++ pixelsHtml goods),
          creativeId := row.creativeId, netRevenue := true,
          ttl := jsOrInt pb.ttl 300, adomains := row.adomains }]) := by
  constructor
  · intro b a goods rest had himps hnat
    have he := isEmptyG_false_of_ad b a had
    simp [interpretResponseG, he, hnat, getBannerAd, himps, had,
      appendImps_stops_at_malformed]
  · intro pb row a goods rest hb had himps
    have he : isEmptyP pb = false := by simp [isEmptyP, hb]
    simp [interpretResponseP, he, hb, eachList, interpretRowP, himps, had,
      appendImps_stops_at_malformed]

/-- Witness for C5: one good tracker followed by a malformed entry keeps
exactly the first pixel, in both variants. -/
theorem pixel_failure_keeps_partial_markup_witness :
    (interpretResponseG { body := some { exBodyOneImp with
        imps := some [Trk.url "http://t1", Trk.malformed] } }).1 =
      Except.ok [{
        requestId := some "b1", cpm := some 1, currency := some "JPY",
        width := some 1, height := some 1, creativeId := some "c",
        netRevenue := true, ttl := 300, mediaType := MediaType.BANNER,
        ad := some ("<div>ad</div>" ++ pixelsHtml ["http://t1"]),
        native := none }] ∧
    (interpretResponseP { body := some {
        cur := some "JPY", ttl := none,
        bids := some [{
          bid := some "b2", price := some 2, w := none,
          h := none, ad := some "<p>x</p>",
          imps := some [Trk.url "http://t2", Trk.malformed],
          creativeId := none, adomains := none }],
        syncs := none } }).1 =
      Except.ok [{
        requestId := some "b2", cpm := some 2, currency := some "JPY",
        width := none, height := none,
        ad := some ("<p>x</p>" ++ pixelsHtml ["http://t2"]),
        creativeId := none, netRevenue := true, ttl := 300,
        adomains := none }] :=
  ⟨pixel_failure_keeps_partial_markup.1
      { exBodyOneImp with imps := some [Trk.url "http://t1", Trk.malformed] }
      "<div>ad</div>" ["http://t1"] [] rfl rfl rfl,
   pixel_failure_keeps_partial_markup.2
      { cur := some "JPY", ttl := none,
        bids := some [{
          bid := some "b2", price := some 2, w := none,
          h := none, ad := some "<p>x</p>",
          imps := some [Trk.url "http://t2", Trk.malformed],
          creativeId := none, adomains := none }],
        syncs := none }
      { bid := some "b2", price := some 2, w := none, h := none,
        ad := some "<p>x</p>",
        imps := some [Trk.url "http://t2", Trk.malformed],
        creativeId := none, adomains := none }
      "<p>x</p>" ["http://t2"] [] rfl rfl rfl⟩

/-! ## C6 -/

/-- A wire `native` object whose asset list holds the title asset of the
claim, with a well-formed click-through link. -/
def exNativeAssets : NativeRes :=
  { assets := some [{
      id := 0, title := some { text := some "T" },
      data := none, img := none }],
    link := some { url := some "https://lp" },
    imptrackers := none, privacy := none, privacyIcon := none }

/-- A GET wire body carrying the native object of the claim. -/
def exBodyNative : ResBodyG :=
  { bid := some "b1", price := some 100, cur := some "JPY", w := some 300,
    h := some 250, creativeId := some "c1", ttl := none, ad := some "x",
    imps := none, native := some exNativeAssets, syncs := none }

/-- C6 failing input evaluated: the GET classification guard reads
`res.native.length`, which is `undefined` on the wire-shaped native
object, so the response carrying the asset `id 0, title text T` is
classified BANNER with no native bundle — while `getNativeAd` itself,
applied to that same native object as its own shape expects, maps the
asset to `title = T`.  The guard contradicts `getNativeAd` and the
declared NATIVE support. -/
theorem native_response_misclassified_as_banner :
    (interpretResponseG { body := some exBodyNative }).1 =
      Except.ok [{
        requestId := some "b1", cpm := some 100, currency := some "JPY",
        width := some 300, height := some 250, creativeId := some "c1",
        netRevenue := true, ttl := 300, mediaType := MediaType.BANNER,
        ad := some "x", native := none }] ∧
    getNativeAd exNativeAssets =
      Except.ok {
        title := some "T", body := none, sponsoredBy := none,
        icon := none, image := none, clickUrl := some "https://lp",
        impressionTrackers := some [], privacyLink := some "",
        privacyIcon := some "" } :=
  ⟨by decide, by decide⟩

/-! ## C7 -/

/-- The pixels one response contributes once its body is reduced to the
`body.syncs` access path: one image pixel per sync URL, in list order. -/
def syncEntriesOf : Option (Option (List String)) → List SyncPixel
  | some (some l) => l.map fun u => { type := "image", url := u }
  | some none => []
  | none => []

lemma collectSyncs_disabled (bs : List (Option (Option (List String)))) :
    collectSyncs false bs = Except.ok [] := by
  induction bs with
  | nil => rfl
  | cons b rest ih => simp [collectSyncs, ih]

lemma collectSyncs_enabled (bs : List (Option (Option (List String))))
    (h : ∀ b ∈ bs, b ≠ some none) :
    collectSyncs true bs = Except.ok (List.flatten (bs.map syncEntriesOf)) := by
  induction bs with
  | nil => rfl
  | cons b rest ih =>
    have hrest := ih fun x hx => h x (List.mem_cons_of_mem b hx)
    match b with
    | none => simp [collectSyncs, hrest, syncEntriesOf]
    | some none => exact absurd rfl (h (some none) (List.mem_cons_self _ _))
    | some (some l) =>
      by_cases hl : l.length = 0
      · have : l = [] := List.length_eq_zero.mp hl
        subst this
        simp [collectSyncs, hrest, syncEntriesOf]
      · simp [collectSyncs, hl, hrest, syncEntriesOf, Except.map]

/-- A GET wire body that is present (truthy) but has no `syncs` list. -/
def exBodyNoSyncs : ResBodyG :=
  { bid := some "b", price := none, cur := none, w := none, h := none,
    creativeId := none, ttl := none, ad := none, imps := none,
    native := none, syncs := none }

/-- Counterexample to C7: with pixel syncing enabled, a response whose
body is present but lacks the `syncs` list makes `getUserSyncs` throw at
`res.body.syncs.length` instead of contributing no entries. -/
theorem getUserSyncs_missing_syncs_throws :
    getUserSyncsG { pixelEnabled := true } [{ body := some exBodyNoSyncs }] =
      Except.error JsError.typeError := by decide

/-- C7 amended: an *empty* `syncs` list (and a disabled pixel option, and
an absent body) contributes no entries; when pixel syncing is enabled and
every present body carries a `syncs` list, `getUserSyncs` emits one
image pixel per sync URL, in response order then per-response list order,
with no deduplication — but a present body *missing* its `syncs` list
makes `getUserSyncs` throw when pixel syncing is enabled. -/
theorem getUserSyncs_emits_pixels_when_syncs_present :
    (∀ (opts : SyncOptions) (rs : List ServerResponseG),
      opts.pixelEnabled = false → getUserSyncsG opts rs = Except.ok []) ∧
    (∀ (opts : SyncOptions) (rs : List ServerResponseG),
      (∀ r ∈ rs, ∀ b, r.body = some b → b.syncs ≠ none) →
      getUserSyncsG opts rs =
        Except.ok (if opts.pixelEnabled then
          List.flatten (rs.map fun r => syncEntriesOf (r.body.map fun b => b.syncs))
        else [])) ∧
    (∀ (opts : SyncOptions) (rs : List ServerResponseP),
      opts.pixelEnabled = false → getUserSyncsP opts rs = Except.ok []) ∧
    (∀ (opts : SyncOptions) (rs : List ServerResponseP),
      (∀ r ∈ rs, ∀ b, r.body = some b → b.syncs ≠ none) →
      getUserSyncsP opts rs =
        Except.ok (if opts.pixelEnabled then
          List.flatten (rs.map fun r => syncEntriesOf (r.body.map fun b => b.syncs))
        else [])) := by
  have habs : ∀ (rs : List ServerResponseG),
      (∀ r ∈ rs, ∀ b, r.body = some b → b.syncs ≠ none) →
      ∀ x ∈ rs.map fun r => r.body.map fun b => b.syncs, x ≠ some none := by
    intro rs h x hx hxe
    rcases List.mem_map.mp hx with ⟨r, hr, rfl⟩
    match hb : r.body with
    | none => rw [hb] at hxe; exact Option.noConfusion hxe
    | some b =>
      rw [hb] at hxe
      exact h r hr b hb (Option.some.inj hxe)
  have habsP : ∀ (rs : List ServerResponseP),
      (∀ r ∈ rs, ∀ b, r.body = some b → b.syncs ≠ none) →
      ∀ x ∈ rs.map fun r => r.body.map fun b => b.syncs, x ≠ some none := by
    intro rs h x hx hxe
    rcases List.mem_map.mp hx with ⟨r, hr, rfl⟩
    match hb : r.body with
    | none => rw [hb] at hxe; exact Option.noConfusion hxe
    | some b =>
      rw [hb] at hxe
      exact h r hr b hb (Option.some.inj hxe)
  refine ⟨fun opts rs h0 => ?_, fun opts rs h => ?_,
    fun opts rs h0 => ?_, fun opts rs h => ?_⟩
  · cases rs with
    | nil => rfl
    | cons r rest => simp [getUserSyncsG, h0, collectSyncs_disabled]
  · cases rs with
    | nil => cases hp : opts.pixelEnabled <;> simp [getUserSyncsG, hp]
    | cons r rest =>
      cases hp : opts.pixelEnabled
      · simp [getUserSyncsG, hp, collectSyncs_disabled]
      · simp only [getUserSyncsG, hp, List.length_cons, if_true]
        rw [collectSyncs_enabled _ (habs (r :: rest) h)]
        simp [List.map_map, Function.comp_def]
  · cases rs with
    | nil => rfl
    | cons r rest => simp [getUserSyncsP, h0, collectSyncs_disabled]
  · cases rs with
    | nil => cases hp : opts.pixelEnabled <;> simp [getUserSyncsP, hp]
    | cons r rest =>
      cases hp : opts.pixelEnabled
      · simp [getUserSyncsP, hp, collectSyncs_disabled]
      · simp only [getUserSyncsP, hp, List.length_cons, if_true]
        rw [collectSyncs_enabled _ (habsP (r :: rest) h)]
        simp [List.map_map, Function.comp_def]

/-- Witness for the amended C7: two responses, the first carrying two sync
URLs and the second with no body, yield the two pixels in order. -/
theorem getUserSyncs_emits_pixels_when_syncs_present_witness :
    getUserSyncsG { pixelEnabled := true }
      [{ body := some { exBodyNoSyncs with
          syncs := some ["https://s1", "https://s2"] } },
       { body := none }] =
      Except.ok [{ type := "image", url := "https://s1" },
        { type := "image", url := "https://s2" }] :=
  (getUserSyncs_emits_pixels_when_syncs_present.2.1
    { pixelEnabled := true }
    [{ body := some { exBodyNoSyncs with
        syncs := some ["https://s1", "https://s2"] } },
     { body := none }]
    (by
      intro r hr b hb
      simp only [List.mem_cons, List.not_mem_nil, or_false] at hr
      rcases hr with rfl | rfl
      · injection hb with hb1
        subst hb1
        decide
      · exact Option.noConfusion hb)).trans (by decide)

/-! ## C8 -/

/-- C8: for a non-empty list of valid bids, the GET variant emits exactly
one wire request per bid (all with method GET) and the POST variant emits
exactly one aggregate wire request (method POST) whose body lists one
`bid`/`sid` entry per input bid, in input order. -/
theorem buildRequests_one_per_bid_or_one_aggregate
    (adServerCurrency : Option String) (dntG : Bool)
    (bidsG : List BidRequestG) (brG : BidderRequestG)
    (dntP : Bool) (metas : List MetaEl) (docReferrer : String)
    (bidsP : List BidRequestP) (brP : BidderRequestP)
    (_hG : bidsG ≠ []) (_hP : bidsP ≠ []) :
    (buildRequestsG adServerCurrency dntG bidsG brG).length = bidsG.length ∧
    (∀ w ∈ buildRequestsG adServerCurrency dntG bidsG brG,
      w.method = "GET") ∧
    (∃ w, buildRequestsP dntP metas docReferrer bidsP brP = [w] ∧
      w.method = "POST" ∧
      w.data.requests = bidsP.map fun r =>
        { bid := r.bidId, sid := getBidIdParameter r.params.sid }) := by
  refine ⟨by simp [buildRequestsG], ?_, ?_⟩
  · intro w hw
    simp only [buildRequestsG, List.mem_map] at hw
    rcases hw with ⟨r, hr, rfl⟩
    rfl
  · exact ⟨_, rfl, rfl, rfl⟩

/-- A concrete GET-variant bid request. -/
def exReqG : BidRequestG :=
  { transactionId := some "t", bidId := some "b",
    params := { sid := some "s1", native := none } }

/-- A concrete GET-variant bidder request. -/
def exBrG : BidderRequestG :=
  { refererInfo := { referer := some "https://pub.example" }, idlEnv := none }

/-- A concrete POST-variant bid request. -/
def exReqP : BidRequestP :=
  { bidId := some "b", params := { sid := some "s1" }, imuid := none,
    pubcid := none, deviceSua := none, userData := none }

/-- A concrete POST-variant bidder request. -/
def exBrP : BidderRequestP :=
  { refererInfo := {
      canonicalUrl := none,
      topmostLocation := some "https://pub.example", ref := none },
    currencyResolved := none }

/-- Witness for C8 at singleton bid lists. -/
theorem buildRequests_one_per_bid_or_one_aggregate_witness :
    (buildRequestsG none false [exReqG] exBrG).length = [exReqG].length ∧
    (∀ w ∈ buildRequestsG none false [exReqG] exBrG, w.method = "GET") ∧
    (∃ w, buildRequestsP false [] "" [exReqP] exBrP = [w] ∧
      w.method = "POST" ∧
      w.data.requests = [exReqP].map fun r =>
        { bid := r.bidId, sid := getBidIdParameter r.params.sid }) :=
  buildRequests_one_per_bid_or_one_aggregate none false [exReqG] exBrG
    false [] "" [exReqP] exBrP (by decide) (by decide)

/-! ## C9 -/

/-- The concatenation of emitted query-string segments, in order. -/
def joinSegs : List String → String
  | [] => ""
  | s :: rest => s ++ joinSegs rest

lemma tryAppend_foldl (l : List (String × Option String)) (qs : String) :
    l.foldl (fun acc kv => tryAppendQueryString acc kv.1 kv.2) qs =
      qs ++ joinSegs (l.filterMap fieldSeg) := by
  induction l generalizing qs with
  | nil => simp [joinSegs]
  | cons kv rest ih =>
    obtain ⟨k, v⟩ := kv
    rw [List.foldl_cons, ih]
    match v with
    | none => simp [tryAppendQueryString, fieldSeg]
    | some s =>
      by_cases hs : s = ""
      · simp [tryAppendQueryString, fieldSeg, hs]
      · simp [tryAppendQueryString, fieldSeg, hs, joinSegs,
          String.append_assoc]

/-- C9: the emitted GET query string is exactly the concatenation of one
`key=value&` segment per field whose value is present and non-empty, in
the source's field order; a field whose value is absent contributes no
segment at all, and no segment ever carries an empty value. -/
theorem query_fields_omitted_when_absent
    (adServerCurrency : Option String) (dnt : Bool)
    (bids : List BidRequestG) (br : BidderRequestG) :
    ((buildRequestsG adServerCurrency dnt bids br).map fun w => w.data) =
      bids.map (fun req =>
        joinSegs ((queryFieldsG adServerCurrency dnt br req).filterMap
          fieldSeg)) ∧
    (∀ k, fieldSeg (k, none) = none) ∧
    (∀ k, fieldSeg (k, some "") = none) ∧
    (∀ k v, v ≠ "" →
      fieldSeg (k, some v) = some (k ++ "=" ++ v ++ "&")) := by
  refine ⟨?_, fun k => rfl, fun k => rfl, fun k v hv => by simp [fieldSeg, hv]⟩
  simp only [buildRequestsG, List.map_map]
  congr 1
  funext req
  have h := tryAppend_foldl (queryFieldsG adServerCurrency dnt br req) ""
  rw [String.empty_append] at h
  rw [← h]
  rfl

/-- Witness for C9: a request with no transaction id omits `tid` entirely,
and a non-empty `sid` is emitted as `sid=s1&`. -/
theorem query_fields_omitted_when_absent_witness :
    ((buildRequestsG none false
        [{ exReqG with transactionId := none }] exBrG).map fun w => w.data) =
      [{ exReqG with transactionId := none }].map (fun req =>
        joinSegs ((queryFieldsG none false exBrG req).filterMap fieldSeg)) ∧
    fieldSeg ("sid", some "s1") = some ("sid" ++ "=" ++ "s1" ++ "&") :=
  ⟨(query_fields_omitted_when_absent none false
      [{ exReqG with transactionId := none }] exBrG).1,
   (query_fields_omitted_when_absent none false
      [{ exReqG with transactionId := none }] exBrG).2.2.2 "sid" "s1"
     (by decide)⟩

/-! ## C10 -/

/-- C10: on the native-assembly path, for a native object with a non-empty
asset list, `getNativeAd` dereferences the click-through link with no
default — when `link` is absent it throws instead of producing a bid —
while `imptrackers` defaults to the empty list and `privacy` /
`privacyIcon` default to the empty string on every successful assembly. -/
theorem getNativeAd_requires_link :
    (∀ (n : NativeRes) (a : NAsset) (rest : List NAsset),
      n.assets = some (a :: rest) → n.link = none →
      ∃ e, getNativeAd n = Except.error e) ∧
    (∀ (n : NativeRes) (a : NAsset) (rest : List NAsset) (l : NLink)
        (out : NativeOut),
      n.assets = some (a :: rest) → n.link = some l →
      getNativeAd n = Except.ok out →
      out.clickUrl = l.url ∧
      out.impressionTrackers = some (n.imptrackers.getD []) ∧
      out.privacyLink = some (jsOrStr n.privacy "") ∧
      out.privacyIcon = some (jsOrStr n.privacyIcon "")) := by
  constructor
  · intro n a rest ha hl
    cases hf : natFold emptyNativeOut (a :: rest) with
    | error e => exact ⟨e, by simp [getNativeAd, ha, hf]⟩
    | ok nat => exact ⟨JsError.typeError, by simp [getNativeAd, ha, hf, hl]⟩
  · intro n a rest l out ha hl hok
    cases hf : natFold emptyNativeOut (a :: rest) with
    | error e => simp [getNativeAd, ha, hf] at hok
    | ok nat =>
      simp only [getNativeAd, ha, hf, hl] at hok
      injection hok with hok
      subst hok
      simp

/-- A native object with a non-empty asset list and no link. -/
def exNativeNoLink : NativeRes :=
  { assets := some [{
      id := 0, title := some { text := some "T" },
      data := none, img := none }],
    link := none, imptrackers := none, privacy := none,
    privacyIcon := none }

/-- Witness for C10: the linkless native object makes `getNativeAd`
throw. -/
theorem getNativeAd_requires_link_witness :
    ∃ e, getNativeAd exNativeNoLink = Except.error e :=
  getNativeAd_requires_link.1 exNativeNoLink
    { id := 0, title := some { text := some "T" }, data := none,
      img := none } [] (by decide) (by decide)
